import Mathlib

/-!
Verification of the URL-shortener entry-lifecycle subsystem (`src/shortener.py`).

The SQLite table `urls (code TEXT PRIMARY KEY, target TEXT, created_at INTEGER,
hits INTEGER DEFAULT 0)` is embedded as a list of `Entry` records; each SQL
statement of the source becomes an explicit list transformation.  Wall-clock
time is an `Int` (seconds since epoch, `int(time.time())`), and the uploads
directory is a list of stored file names.  String operations of the source
(`startswith`, `replace`, `strip`) are embedded through `String.toList`, which
is faithful for the ASCII data involved.
-/

set_option autoImplicit false

namespace Shortener

/-- The constant `DELETE_AFTER_SECONDS = 10 * 60` — the fixed TTL from the config block. -/
def DELETE_AFTER_SECONDS : Int := 10 * 60

/-- One row of the `urls` table: `code, target, created_at, hits`. -/
structure Entry where
  code : String
  target : String
  created_at : Int
  hits : Int
  deriving DecidableEq, Repr

/-- The `urls` table, one `Entry` per row. -/
abbrev Store := List Entry

/-- The uploads folder: the set of stored file names (the part of the path
below `UPLOAD_FOLDER`), as a list without duplicates. -/
abbrev Files := List String

/-- The marker `"/uploads/"` used by `tgt.startswith("/uploads/")`. -/
def uploadsTag : List Char := "/uploads/".toList

/-- The test `tgt.startswith("/uploads/")`: the target denotes a stored file artifact. -/
def isUploadTarget (t : String) : Bool := uploadsTag.isPrefixOf t.toList

/-- The expression `tgt.replace("/uploads/", "", 1)`: under the `startswith` guard the single
replaced occurrence is the leading one, so this is the target with its first
nine characters removed — the stored file name. -/
def artifactName (t : String) : String := String.mk (t.toList.drop uploadsTag.length)

/-- The population `string.ascii_letters + string.digits`: the 62-character alphabet
`generate_code` draws from. -/
def alphabetList : List Char :=
  "abcdefghijklmnopqrstuvwxyzABCDEFGHIJKLMNOPQRSTUVWXYZ0123456789".toList

/-- The generator `generate_code(length)`: `random.choices(string.ascii_letters +
string.digits, k=length)` joined into a string.  The randomness source is
modelled as a stream `r : Nat → Nat`; pick `i` selects the character at index
`r i mod 62` of the alphabet (a uniform choice over the population). -/
def generate_code (r : Nat → Nat) (length : Nat) : String :=
  String.mk ((List.range length).map fun i => alphabetList.getD (r i % 62) 'a')

/-- The writer `save_mapping(code, target)`: `INSERT OR REPLACE INTO urls ... VALUES
(?,?,?,0)` with `created_at = int(time.time())`.  The REPLACE semantics of the
primary key drop any existing row with this code and insert the fresh row
with `hits = 0`. -/
def save_mapping (s : Store) (code target : String) (now : Int) : Store :=
  ⟨code, target, now, 0⟩ :: s.filter (fun e => e.code ≠ code)

/-- The reader `get_row(code)`: `SELECT code, target, created_at, hits FROM urls WHERE
code = ?` followed by `fetchone()`. -/
def get_row (s : Store) (code : String) : Option Entry :=
  s.find? (fun e => e.code = code)

/-- The helper `seconds_left(created_at) = max(0, DELETE_AFTER_SECONDS - (int(time.time())
- created_at))`. -/
def seconds_left (created_at now : Int) : Int :=
  max 0 (DELETE_AFTER_SECONDS - (now - created_at))

/-- The statement `UPDATE urls SET hits = hits + 1 WHERE code = ?`. -/
def increment_hits (s : Store) (code : String) : Store :=
  s.map fun e => if e.code = code then { e with hits := e.hits + 1 } else e

/-- The statement `DELETE FROM urls WHERE code = ?`. -/
def delete_code (s : Store) (code : String) : Store :=
  s.filter (fun e => e.code ≠ code)

/-- The outcome of the `/<code>` route `redirect_code`:
`notFound` is the 404 for an absent row, `expired` the 410, `dbError` an
uncaught sqlite exception from the hits UPDATE (HTTP 500), `sentFile` a
successful `send_from_directory`, `missingFile` the 404 `send_from_directory`
raises when the stored file is gone, `redirected` the `redirect(target)`. -/
inductive RedirectResult where
  | notFound : RedirectResult
  | expired : RedirectResult
  | dbError : RedirectResult
  | sentFile (name : String) : RedirectResult
  | missingFile (name : String) : RedirectResult
  | redirected (target : String) : RedirectResult
  deriving DecidableEq, Repr

/-- The `/<code>` handler `redirect_code`: fetch the row (404 if absent),
check `time.time() - created_at > DELETE_AFTER_SECONDS` (410 if expired),
run `UPDATE urls SET hits = hits + 1 WHERE code = ?`, then either serve the
uploaded file (`target.startswith("/uploads/")`) or redirect to the target.
`dbOk` models whether the sqlite UPDATE executes without raising: the source
has no try/except around it, so on `dbOk = false` the exception propagates,
the transaction is rolled back (store unchanged) and the request fails with
HTTP 500 before any target is served. -/
def redirect_code (s : Store) (files : Files) (now : Int) (dbOk : Bool)
    (code : String) : RedirectResult × Store :=
  match get_row s code with
  | none => (.notFound, s)
  | some row =>
    if now - row.created_at > DELETE_AFTER_SECONDS then (.expired, s)
    else if dbOk then
      let s' := increment_hits s row.code
      if isUploadTarget row.target then
        let name := artifactName row.target
        if name ∈ files then (.sentFile name, s') else (.missingFile name, s')
      else (.redirected row.target, s')
    else (.dbError, s)

/-- The `/api/metadata/<code>` handler: `get_row`, 404 if absent, otherwise
the JSON body `(target, created_at, expires_in, hits)` — no TTL filtering. -/
def metadata (s : Store) (code : String) (now : Int) :
    Option (String × Int × Int × Int) :=
  (get_row s code).map fun e =>
    (e.target, e.created_at, seconds_left e.created_at now, e.hits)

/-- The rows the cleanup sweep fetches: `SELECT code, target FROM urls WHERE
? - created_at > ?` with parameters `(now, DELETE_AFTER_SECONDS)`. -/
def expiredRows (s : Store) (now : Int) : List Entry :=
  s.filter (fun e => now - e.created_at > DELETE_AFTER_SECONDS)

/-- The body of the cleanup loop over the fetched `(code, target)` pairs: for
a target starting with `/uploads/` whose file still exists (`os.path.isfile`),
`os.remove` is invoked — `rmOk` says whether it succeeds, and an `os.remove`
exception is swallowed by the bare `except: pass` — then `DELETE FROM urls
WHERE code = ?`.  Returns the final table, the final uploads folder, and the
list of file names on which `os.remove` was actually invoked. -/
def runSweep (rmOk : String → Bool) :
    List (String × String) → Store → Files → Store × Files × List String
  | [], s, f => (s, f, [])
  | (code, tgt) :: rest, s, f =>
    let removal : Files × List String :=
      if isUploadTarget tgt then
        let name := artifactName tgt
        if name ∈ f then
          (if rmOk name then f.erase name else f, [name])
        else (f, [])
      else (f, [])
    let out := runSweep rmOk rest (delete_code s code) removal.1
    (out.1, out.2.1, removal.2 ++ out.2.2)

/-- One iteration of the `cleanup` daemon at time `now = int(time.time())`:
fetch the expired `(code, target)` pairs, then run the removal/delete loop. -/
def cleanup_sweep (s : Store) (f : Files) (now : Int) (rmOk : String → Bool) :
    Store × Files × List String :=
  runSweep rmOk ((expiredRows s now).map fun e => (e.code, e.target)) s f

/-- The predicate `resolvesTarget res t`: the lookup outcome `res` commits to the target
`t` — it is the `Target(value)` arm of the tri-state contract.  For a URL
target this is the HTTP redirect; for a stored file it is the
`send_from_directory` delivery of the artifact (which itself can still fail at
the HTTP layer if the artifact is gone, but only after the lookup resolved). -/
def resolvesTarget (res : RedirectResult) (t : String) : Prop :=
  res = .redirected t ∨ res = .sentFile (artifactName t) ∨
    res = .missingFile (artifactName t)

instance (res : RedirectResult) (t : String) : Decidable (resolvesTarget res t) := by
  unfold resolvesTarget; infer_instance

/-- A batch of `/<code>` requests applied one after the other.  Concurrency is
modelled as an arbitrary interleaving of the handlers' store effects; this is
faithful because the one mutating statement, `UPDATE urls SET hits = hits + 1
WHERE code = ?`, is executed atomically by the serialized sqlite writer (the
read-modify-write happens inside the statement, not in Python). -/
def runLookups (f : Files) (now : Int) (reqs : List String) (s : Store) : Store :=
  reqs.foldl (fun st d => (redirect_code st f now true d).2) s

/-- The whitespace set of Python's `str.strip()`, i.e. the characters with
`str.isspace()` true: tab through carriage return (U+0009–U+000D), the ASCII
file/group/record/unit separators (U+001C–U+001F), space, next line (U+0085),
no-break space (U+00A0), Ogham space mark (U+1680), the typographic spaces
U+2000–U+200A, line and paragraph separators (U+2028, U+2029), narrow
no-break space (U+202F), medium mathematical space (U+205F), and ideographic
space (U+3000). -/
def pySpace (c : Char) : Bool :=
  (0x09 ≤ c.toNat && c.toNat ≤ 0x0d) || c.toNat = 0x20 ||
    (0x1c ≤ c.toNat && c.toNat ≤ 0x1f) || c.toNat = 0x85 ||
    c.toNat = 0xa0 || c.toNat = 0x1680 ||
    (0x2000 ≤ c.toNat && c.toNat ≤ 0x200a) || c.toNat = 0x2028 ||
    c.toNat = 0x2029 || c.toNat = 0x202f || c.toNat = 0x205f ||
    c.toNat = 0x3000

/-- The method `str.strip()`: the string with leading and trailing whitespace removed. -/
def pythonStrip (s : String) : String :=
  String.mk ((s.toList.dropWhile pySpace).reverse.dropWhile pySpace).reverse

/-- The key selection of the `/upload` handler:
`code = request.form.get("code", "").strip() or generate_code()` — the
stripped caller-supplied code when it is truthy (non-empty), otherwise a
freshly generated default-length (6) code. -/
def upload_code (raw : String) (r : Nat → Nat) : String :=
  if pythonStrip raw = "" then generate_code r 6 else pythonStrip raw

end Shortener

namespace Shortener

/-! ### Basic lemmas about the store operations -/

theorem get_row_save_same (s : Store) (code target : String) (now : Int) :
    get_row (save_mapping s code target now) code =
      some ⟨code, target, now, 0⟩ := by
  simp [get_row, save_mapping, List.find?]

theorem get_row_code {s : Store} {c : String} {e : Entry}
    (h : get_row s c = some e) : e.code = c := by
  simpa using List.find?_some h

theorem get_row_mem {s : Store} {c : String} {e : Entry}
    (h : get_row s c = some e) : e ∈ s :=
  List.mem_of_find?_eq_some h

/-- C1: upsert semantics — after `create_or_replace(c, t1)` then
`create_or_replace(c, t2)` (at times `n1`, `n2`), `get(c)` returns the entry
with target `t2`, hits `0` (prior hits discarded) and `created_at = n2`. -/
theorem upsert_last_write_wins (s : Store) (c t1 t2 : String) (n1 n2 : Int) :
    get_row (save_mapping (save_mapping s c t1 n1) c t2 n2) c =
      some ⟨c, t2, n2, 0⟩ :=
  get_row_save_same _ c t2 n2

/-! ### Lemmas about the redirect handler -/

theorem redirect_code_of_none {s : Store} {c : String} (f : Files) (now : Int)
    (dbOk : Bool) (h : get_row s c = none) :
    redirect_code s f now dbOk c = (.notFound, s) := by
  simp [redirect_code, h]

theorem redirect_code_of_expired {s : Store} {c : String} {e : Entry}
    (f : Files) (now : Int) (dbOk : Bool) (h : get_row s c = some e)
    (hexp : now - e.created_at > DELETE_AFTER_SECONDS) :
    redirect_code s f now dbOk c = (.expired, s) := by
  simp [redirect_code, h, hexp]

theorem redirect_code_of_dbfail {s : Store} {c : String} {e : Entry}
    (f : Files) (now : Int) (h : get_row s c = some e)
    (hlive : ¬ now - e.created_at > DELETE_AFTER_SECONDS) :
    redirect_code s f now false c = (.dbError, s) := by
  simp [redirect_code, h, hlive]

theorem redirect_code_live_fst {s : Store} {c : String} {e : Entry}
    (f : Files) (now : Int) (h : get_row s c = some e)
    (hlive : ¬ now - e.created_at > DELETE_AFTER_SECONDS) :
    resolvesTarget (redirect_code s f now true c).1 e.target := by
  by_cases hu : isUploadTarget e.target <;>
    by_cases hf : artifactName e.target ∈ f <;>
      simp [redirect_code, h, hlive, hu, hf, resolvesTarget]

theorem redirect_code_live_snd {s : Store} {c : String} {e : Entry}
    (f : Files) (now : Int) (h : get_row s c = some e)
    (hlive : ¬ now - e.created_at > DELETE_AFTER_SECONDS) :
    (redirect_code s f now true c).2 = increment_hits s c := by
  have hc : e.code = c := get_row_code h
  by_cases hu : isUploadTarget e.target <;>
    by_cases hf : artifactName e.target ∈ f <;>
      simp [redirect_code, h, hlive, hu, hf, hc]

theorem resolvesTarget_not_expired {t : String} :
    ¬ resolvesTarget RedirectResult.expired t := by
  simp [resolvesTarget]

theorem resolvesTarget_not_notFound {t : String} :
    ¬ resolvesTarget RedirectResult.notFound t := by
  simp [resolvesTarget]

/-- The first component of the handler is `.notFound` exactly when no row
exists, and `.expired` exactly when the row is past its TTL. -/
theorem redirect_code_fst_notFound_iff (s : Store) (f : Files) (now : Int)
    (c : String) :
    (redirect_code s f now true c).1 = .notFound ↔ get_row s c = none := by
  cases h : get_row s c with
  | none => simp [redirect_code_of_none f now true h]
  | some e =>
    by_cases hexp : now - e.created_at > DELETE_AFTER_SECONDS
    · simp [redirect_code_of_expired f now true h hexp]
    · rcases redirect_code_live_fst f now h hexp with hr | hr | hr <;> simp [hr]

theorem redirect_code_fst_expired_iff (s : Store) (f : Files) (now : Int)
    (c : String) :
    (redirect_code s f now true c).1 = .expired ↔
      ∃ e, get_row s c = some e ∧ now - e.created_at > DELETE_AFTER_SECONDS := by
  cases h : get_row s c with
  | none => simp [redirect_code_of_none f now true h]
  | some e =>
    by_cases hexp : now - e.created_at > DELETE_AFTER_SECONDS
    · simp [redirect_code_of_expired f now true h hexp, h, hexp]
    · rcases redirect_code_live_fst f now h hexp with hr | hr | hr <;>
        simp [hr, h, hexp]

/-- C2: the lookup path is the tri-state `{NotFound, Expired, Target}`:
`notFound` exactly when no row exists, `expired` exactly when the row is past
its TTL (`now - created_at > DELETE_AFTER_SECONDS`), and otherwise the handler
resolves the row's target; an expired row's target is never resolved even
though the row is still physically present; in particular a row created at
`t0` is resolved at `t0 + TTL - 1` and reported expired at `t0 + TTL + 1`,
with no deletion involved. -/
theorem lookup_tristate_ttl (s : Store) (f : Files) (now : Int) (c : String) :
    ((redirect_code s f now true c).1 = .notFound ↔ get_row s c = none) ∧
    ((redirect_code s f now true c).1 = .expired ↔
      ∃ e, get_row s c = some e ∧ now - e.created_at > DELETE_AFTER_SECONDS) ∧
    (∀ e, get_row s c = some e → now - e.created_at ≤ DELETE_AFTER_SECONDS →
      resolvesTarget (redirect_code s f now true c).1 e.target) ∧
    (∀ e, get_row s c = some e → now - e.created_at > DELETE_AFTER_SECONDS →
      ¬ resolvesTarget (redirect_code s f now true c).1 e.target) ∧
    (∀ e, get_row s c = some e →
      resolvesTarget
        (redirect_code s f (e.created_at + DELETE_AFTER_SECONDS - 1) true c).1
          e.target ∧
      (redirect_code s f (e.created_at + DELETE_AFTER_SECONDS + 1) true c).1 =
        .expired) := by
  refine ⟨redirect_code_fst_notFound_iff s f now c,
    redirect_code_fst_expired_iff s f now c, ?_, ?_, ?_⟩
  · intro e h hle
    exact redirect_code_live_fst f now h (by omega)
  · intro e h hexp
    rw [redirect_code_of_expired f now true h hexp]
    exact resolvesTarget_not_expired
  · intro e h
    refine ⟨redirect_code_live_fst f _ h (by omega), ?_⟩
    rw [redirect_code_of_expired f _ true h (by omega)]

/-- Witness for C2 at a concrete store: the TTL boundary behaviour of the
entry `("abc123", "https://example.com")` created at time 0. -/
theorem lookup_tristate_ttl_witness :
    resolvesTarget
      (redirect_code [⟨"abc123", "https://example.com", 0, 0⟩] []
        (0 + DELETE_AFTER_SECONDS - 1) true "abc123").1 "https://example.com" ∧
    (redirect_code [⟨"abc123", "https://example.com", 0, 0⟩] []
        (0 + DELETE_AFTER_SECONDS + 1) true "abc123").1 = .expired :=
  (lookup_tristate_ttl [⟨"abc123", "https://example.com", 0, 0⟩] [] 0
    "abc123").2.2.2.2 ⟨"abc123", "https://example.com", 0, 0⟩ (by decide)

/-- C5: `get` ignores TTL — `get_row` returns `none` exactly when no row with
the code exists, otherwise the full stored entry `(code, target, created_at,
hits)`, and the `/api/metadata` read built on it still answers for a logically
expired row (with `expires_in` clamped to 0). -/
theorem get_row_ignores_ttl (s : Store) (c : String) (now : Int) :
    (get_row s c = none ↔ ∀ e ∈ s, e.code ≠ c) ∧
    (∀ e, get_row s c = some e → e ∈ s ∧ e.code = c) ∧
    (∀ e, get_row s c = some e →
      metadata s c now =
        some (e.target, e.created_at, seconds_left e.created_at now, e.hits)) ∧
    (∀ e, get_row s c = some e → now - e.created_at > DELETE_AFTER_SECONDS →
      metadata s c now = some (e.target, e.created_at, 0, e.hits)) := by
  refine ⟨?_, fun e h => ⟨get_row_mem h, get_row_code h⟩, fun e h => ?_, fun e h hexp => ?_⟩
  · simp [get_row, List.find?_eq_none]
  · simp [metadata, h]
  · have hz : seconds_left e.created_at now = 0 := by
      simp only [seconds_left, DELETE_AFTER_SECONDS] at *
      omega
    simp [metadata, h, hz]

/-- Witness for C5: the metadata read of an entry that expired 400 seconds ago
still returns its full row. -/
theorem get_row_ignores_ttl_witness :
    metadata [⟨"a", "u", 0, 3⟩] "a" 1000 = some ("u", 0, 0, 3) :=
  (get_row_ignores_ttl [⟨"a", "u", 0, 3⟩] "a" 1000).2.2.2 ⟨"a", "u", 0, 3⟩
    (by decide) (by decide)

/-- C7 counterexample: at a live code, when the hits UPDATE raises (the source
wraps it in no try/except), the exception propagates: the handler produces the
HTTP 500 outcome `dbError` and does not resolve the target — whereas with a
working database the very same request resolves it. -/
theorem increment_failure_blocks_redirect :
    redirect_code [⟨"a", "u", 0, 0⟩] [] 1 false "a" =
      (.dbError, [⟨"a", "u", 0, 0⟩]) ∧
    ¬ resolvesTarget (redirect_code [⟨"a", "u", 0, 0⟩] [] 1 false "a").1 "u" ∧
    (redirect_code [⟨"a", "u", 0, 0⟩] [] 1 true "a").1 = .redirected "u" := by
  refine ⟨by decide, by decide, by decide⟩

/-- C7 amended: on a live row the handler increments `hits` (as the side
effect preceding the response) and resolves the target when the UPDATE
succeeds; when the UPDATE raises, the error propagates — the response is the
500 `dbError`, the target is not resolved, and the store is left unchanged. -/
theorem hits_increment_before_redirect (s : Store) (f : Files) (now : Int)
    (c : String) (e : Entry) (h : get_row s c = some e)
    (hlive : now - e.created_at ≤ DELETE_AFTER_SECONDS) :
    resolvesTarget (redirect_code s f now true c).1 e.target ∧
    (redirect_code s f now true c).2 = increment_hits s c ∧
    redirect_code s f now false c = (.dbError, s) := by
  have hlive' : ¬ now - e.created_at > DELETE_AFTER_SECONDS := by omega
  exact ⟨redirect_code_live_fst f now h hlive',
    redirect_code_live_snd f now h hlive',
    redirect_code_of_dbfail f now h hlive'⟩

/-! ### Lemmas about the hit counter -/

theorem incEntry_code (d : String) (a : Entry) :
    (if a.code = d then { a with hits := a.hits + 1 } else a).code = a.code := by
  split <;> rfl

theorem get_row_increment (s : Store) (c d : String) :
    get_row (increment_hits s d) c =
      (get_row s c).map
        fun e => if e.code = d then { e with hits := e.hits + 1 } else e := by
  unfold get_row increment_hits
  rw [List.find?_map]
  have hpred : ((fun e : Entry => decide (e.code = c)) ∘
      fun e : Entry => if e.code = d then { e with hits := e.hits + 1 } else e) =
      fun e : Entry => decide (e.code = c) := by
    funext e
    simp [Function.comp, incEntry_code]
  rw [hpred]

theorem mem_increment_of_ne {s : Store} {e : Entry} (d : String)
    (he : e ∈ s) (hne : e.code ≠ d) : e ∈ increment_hits s d := by
  have hfix : (if e.code = d then { e with hits := e.hits + 1 } else e) = e :=
    if_neg hne
  exact hfix ▸ List.mem_map_of_mem _ he

theorem runLookups_hits (f : Files) (now : Int) (c : String) :
    ∀ (reqs : List String) (s : Store) (e : Entry),
      get_row s c = some e → now - e.created_at ≤ DELETE_AFTER_SECONDS →
      get_row (runLookups f now reqs s) c =
        some { e with hits := e.hits + reqs.count c } := by
  intro reqs
  induction reqs with
  | nil =>
    intro s e h _
    simpa [runLookups] using h
  | cons d rest ih =>
    intro s e h hlive
    have hstep : runLookups f now (d :: rest) s =
        runLookups f now rest ((redirect_code s f now true d).2) := rfl
    rw [hstep]
    cases hd : get_row s d with
    | none =>
      have hdc : c ≠ d := fun heq => by rw [← heq, h] at hd; cases hd
      have hsnd : (redirect_code s f now true d).2 = s :=
        congrArg Prod.snd (redirect_code_of_none f now true hd)
      rw [hsnd, ih s e h hlive]
      simp [List.count_cons, hdc]
    | some e' =>
      by_cases hexp : now - e'.created_at > DELETE_AFTER_SECONDS
      · have hdc : c ≠ d := by
          intro heq
          rw [← heq, h] at hd
          cases hd
          omega
        have hsnd : (redirect_code s f now true d).2 = s :=
          congrArg Prod.snd (redirect_code_of_expired f now true hd hexp)
        rw [hsnd, ih s e h hlive]
        simp [List.count_cons, hdc]
      · have hsnd : (redirect_code s f now true d).2 = increment_hits s d :=
          redirect_code_live_snd f now hd hexp
        rw [hsnd]
        by_cases hdc : c = d
        · have hce : e.code = c := get_row_code h
          have hrow : get_row (increment_hits s d) c =
              some { e with hits := e.hits + 1 } := by
            rw [get_row_increment, h]
            simp [hce, hdc]
          rw [ih (increment_hits s d) { e with hits := e.hits + 1 } hrow hlive]
          have : e.hits + 1 + (rest.count c : Int) =
              e.hits + ((d :: rest).count c : Int) := by
            simp [List.count_cons, hdc]
            ring
          simp only [this]
        · have hce : e.code = c := get_row_code h
          have hrow : get_row (increment_hits s d) c = some e := by
            rw [get_row_increment, h]
            simp [hce, hdc]
          rw [ih (increment_hits s d) e hrow hlive]
          simp [List.count_cons, hdc]

/-- C9: no lost hit updates — starting from a live entry with `hits = 0`, an
arbitrary interleaving `reqs` of concurrent lookup requests (for this code and
any others) leaves the entry with `hits` equal to the number of requests for
its code: each of the `N` successful lookups of the live code contributes
exactly one increment. -/
theorem concurrent_lookups_count_hits (s : Store) (f : Files) (now : Int)
    (c : String) (e : Entry) (reqs : List String)
    (h : get_row s c = some e) (h0 : e.hits = 0)
    (hlive : now - e.created_at ≤ DELETE_AFTER_SECONDS) :
    get_row (runLookups f now reqs s) c =
      some { e with hits := reqs.count c } := by
  have hrun := runLookups_hits f now c reqs s e h hlive
  rw [h0] at hrun
  simpa using hrun

/-- Witness for C9: three lookups of `"a"` interleaved with one lookup of
`"b"` leave `"a"` with `hits = 3`. -/
theorem concurrent_lookups_count_hits_witness :
    get_row (runLookups [] 1 ["a", "b", "a", "a"] [⟨"a", "u", 0, 0⟩]) "a" =
      some ⟨"a", "u", 0, 3⟩ := by
  have := concurrent_lookups_count_hits [⟨"a", "u", 0, 0⟩] [] 1 "a"
    ⟨"a", "u", 0, 0⟩ ["a", "b", "a", "a"] (by decide) (by decide) (by decide)
  simpa using this

/-- Witness for C7's amended theorem at a concrete live entry. -/
theorem hits_increment_before_redirect_witness :
    resolvesTarget (redirect_code [⟨"a", "u", 5, 2⟩] [] 6 true "a").1 "u" ∧
    (redirect_code [⟨"a", "u", 5, 2⟩] [] 6 true "a").2 =
      increment_hits [⟨"a", "u", 5, 2⟩] "a" ∧
    redirect_code [⟨"a", "u", 5, 2⟩] [] 6 false "a" =
      (.dbError, [⟨"a", "u", 5, 2⟩]) :=
  hits_increment_before_redirect [⟨"a", "u", 5, 2⟩] [] 6 "a" ⟨"a", "u", 5, 2⟩
    (by decide) (by decide)

/-! ### Lemmas about the cleanup sweep -/

theorem mem_delete_code {s : Store} {e : Entry} {code : String} :
    e ∈ delete_code s code ↔ e ∈ s ∧ e.code ≠ code := by
  simp [delete_code, List.mem_filter]

theorem mem_expiredRows {s : Store} {e : Entry} {now : Int} :
    e ∈ expiredRows s now ↔
      e ∈ s ∧ now - e.created_at > DELETE_AFTER_SECONDS := by
  simp [expiredRows, List.mem_filter]

theorem runSweep_store_mem (rmOk : String → Bool) :
    ∀ (rows : List (String × String)) (s : Store) (f : Files) (e : Entry),
      e ∈ (runSweep rmOk rows s f).1 → e ∈ s ∧ ∀ r ∈ rows, e.code ≠ r.1 := by
  intro rows
  induction rows with
  | nil =>
    intro s f e he
    refine ⟨by simpa [runSweep] using he, by simp⟩
  | cons r rest ih =>
    intro s f e he
    obtain ⟨code, tgt⟩ := r
    simp only [runSweep] at he
    obtain ⟨hdel, hrest⟩ := ih _ _ _ he
    obtain ⟨hmem, hne⟩ := mem_delete_code.mp hdel
    refine ⟨hmem, ?_⟩
    intro r hr
    rcases List.mem_cons.mp hr with hr | hr
    · subst hr; exact hne
    · exact hrest r hr

theorem runSweep_store_keep (rmOk : String → Bool) :
    ∀ (rows : List (String × String)) (s : Store) (f : Files) (e : Entry),
      e ∈ s → (∀ r ∈ rows, e.code ≠ r.1) → e ∈ (runSweep rmOk rows s f).1 := by
  intro rows
  induction rows with
  | nil =>
    intro s f e he _
    simpa [runSweep] using he
  | cons r rest ih =>
    intro s f e he hcodes
    obtain ⟨code, tgt⟩ := r
    simp only [runSweep]
    refine ih _ _ _ ?_ ?_
    · exact mem_delete_code.mpr ⟨he, hcodes (code, tgt) (List.mem_cons_self _ _)⟩
    · intro r hr
      exact hcodes r (List.mem_cons_of_mem _ hr)

theorem runSweep_files_subset (rmOk : String → Bool) :
    ∀ (rows : List (String × String)) (s : Store) (f : Files),
      (runSweep rmOk rows s f).2.1 ⊆ f := by
  intro rows
  induction rows with
  | nil => intro s f; simp [runSweep]
  | cons r rest ih =>
    intro s f
    obtain ⟨code, tgt⟩ := r
    simp only [runSweep]
    refine (ih _ _).trans ?_
    by_cases hu : isUploadTarget tgt <;>
      by_cases hmem : artifactName tgt ∈ f <;>
        by_cases hok : rmOk (artifactName tgt) <;>
          simp [hu, hmem, hok, List.erase_subset, List.Subset.refl]

theorem runSweep_att (rmOk : String → Bool) :
    ∀ (rows : List (String × String)) (s : Store) (f : Files) (p : String),
      p ∈ (runSweep rmOk rows s f).2.2 →
      ∃ r ∈ rows, isUploadTarget r.2 ∧ p = artifactName r.2 := by
  intro rows
  induction rows with
  | nil => intro s f p hp; simp [runSweep] at hp
  | cons r rest ih =>
    intro s f p hp
    obtain ⟨code, tgt⟩ := r
    simp only [runSweep, List.mem_append] at hp
    rcases hp with hp | hp
    · by_cases hu : isUploadTarget tgt <;>
        by_cases hmem : artifactName tgt ∈ f <;>
          simp only [hu, hmem, if_true, if_false, ite_true, ite_false] at hp
      · rcases List.mem_singleton.mp hp with rfl
        exact ⟨(code, tgt), List.mem_cons_self _ _, hu, rfl⟩
      all_goals cases hp
    · obtain ⟨r, hr, hprops⟩ := ih _ _ _ hp
      exact ⟨r, List.mem_cons_of_mem _ hr, hprops⟩

theorem removalFiles_nodup {f : Files} (hf : f.Nodup) (tgt : String)
    (rmOk : String → Bool) :
    (if isUploadTarget tgt then
        if artifactName tgt ∈ f then
          (if rmOk (artifactName tgt) then f.erase (artifactName tgt) else f,
            ([artifactName tgt] : List String))
        else (f, [])
      else (f, [])).1.Nodup := by
  by_cases hu : isUploadTarget tgt <;>
    by_cases hmem : artifactName tgt ∈ f <;>
      by_cases hok : rmOk (artifactName tgt) <;>
        simp [hu, hmem, hok, hf, hf.erase]

theorem runSweep_files_removed (rmOk : String → Bool) :
    ∀ (rows : List (String × String)) (s : Store) (f : Files),
      f.Nodup → ∀ code tgt, (code, tgt) ∈ rows → isUploadTarget tgt →
      rmOk (artifactName tgt) →
      artifactName tgt ∉ (runSweep rmOk rows s f).2.1 := by
  intro rows
  induction rows with
  | nil =>
    intro s f _ code tgt hmem
    cases hmem
  | cons r rest ih =>
    intro s f hf code tgt hmem hu hok
    obtain ⟨code', tgt'⟩ := r
    simp only [runSweep]
    rcases List.mem_cons.mp hmem with hhead | htail
    · cases hhead
      by_cases hpresent : artifactName tgt ∈ f
      · have hgone : artifactName tgt ∉ f.erase (artifactName tgt) :=
          hf.not_mem_erase
        intro hcontra
        exact hgone (runSweep_files_subset rmOk rest _ _
          (by simpa [hu, hpresent, hok] using hcontra))
      · intro hcontra
        exact hpresent (runSweep_files_subset rmOk rest _ _
          (by simpa [hu, hpresent] using hcontra))
    · exact ih _ _ (removalFiles_nodup hf tgt' rmOk) code tgt htail hu hok

theorem runSweep_files_keep (rmOk : String → Bool) :
    ∀ (rows : List (String × String)) (s : Store) (f : Files) (p : String),
      p ∈ f →
      (∀ r ∈ rows, isUploadTarget r.2 → p ≠ artifactName r.2) →
      p ∈ (runSweep rmOk rows s f).2.1 := by
  intro rows
  induction rows with
  | nil =>
    intro s f p hp _
    simpa [runSweep] using hp
  | cons r rest ih =>
    intro s f p hp hav
    obtain ⟨code, tgt⟩ := r
    simp only [runSweep]
    refine ih _ _ p ?_ ?_
    · by_cases hu : isUploadTarget tgt <;>
        by_cases hmem : artifactName tgt ∈ f <;>
          by_cases hok : rmOk (artifactName tgt) <;>
            simp only [hu, hmem, hok, if_true, if_false, ite_true, ite_false]
      all_goals try exact hp
      exact List.mem_erase_of_ne
        (hav (code, tgt) (List.mem_cons_self _ _) hu) |>.mpr hp
    · intro r hr
      exact hav r (List.mem_cons_of_mem _ hr)

theorem expired_pair_mem_rows {s : Store} {e : Entry} {now : Int}
    (he : e ∈ s) (hexp : now - e.created_at > DELETE_AFTER_SECONDS) :
    (e.code, e.target) ∈ (expiredRows s now).map fun x => (x.code, x.target) :=
  List.mem_map_of_mem _ (mem_expiredRows.mpr ⟨he, hexp⟩)

/-- C3: one reaper sweep at time `now` processes exactly the rows with
`now - created_at > DELETE_AFTER_SECONDS`: every expired row is deleted from
the table no matter what the artifact removal did (`rmOk` is arbitrary) and
every live row survives; `os.remove` is invoked only on artifacts of expired
`/uploads/` rows (so a URL-backed row's expiry triggers none); when the
removal of an expired row's artifact succeeds the artifact is gone from the
uploads folder, and files named by no expired `/uploads/` row are kept. -/
theorem reaper_sweep_spec (s : Store) (f : Files) (now : Int)
    (rmOk : String → Bool) (hs : (s.map Entry.code).Nodup) (hf : f.Nodup) :
    (∀ e ∈ s, now - e.created_at > DELETE_AFTER_SECONDS →
      e ∉ (cleanup_sweep s f now rmOk).1) ∧
    (∀ e ∈ s, ¬ now - e.created_at > DELETE_AFTER_SECONDS →
      e ∈ (cleanup_sweep s f now rmOk).1) ∧
    (∀ p ∈ (cleanup_sweep s f now rmOk).2.2,
      ∃ e ∈ s, now - e.created_at > DELETE_AFTER_SECONDS ∧
        isUploadTarget e.target ∧ p = artifactName e.target) ∧
    (∀ e ∈ s, now - e.created_at > DELETE_AFTER_SECONDS →
      isUploadTarget e.target → rmOk (artifactName e.target) →
      artifactName e.target ∉ (cleanup_sweep s f now rmOk).2.1) ∧
    (∀ p ∈ f, (∀ e ∈ s, now - e.created_at > DELETE_AFTER_SECONDS →
        isUploadTarget e.target → p ≠ artifactName e.target) →
      p ∈ (cleanup_sweep s f now rmOk).2.1) := by
  refine ⟨?_, ?_, ?_, ?_, ?_⟩
  · intro e he hexp hcontra
    obtain ⟨-, hcodes⟩ := runSweep_store_mem rmOk _ s f e hcontra
    exact hcodes (e.code, e.target) (expired_pair_mem_rows he hexp) rfl
  · intro e he hlive
    refine runSweep_store_keep rmOk _ s f e he ?_
    intro r hr
    obtain ⟨e', he', rfl⟩ := List.mem_map.mp hr
    obtain ⟨he's, hexp'⟩ := mem_expiredRows.mp he'
    intro hcode
    have : e = e' := List.inj_on_of_nodup_map hs he he's hcode
    exact hlive (this ▸ hexp')
  · intro p hp
    obtain ⟨r, hr, hu, hname⟩ := runSweep_att rmOk _ s f p hp
    obtain ⟨e', he', rfl⟩ := List.mem_map.mp hr
    obtain ⟨he's, hexp'⟩ := mem_expiredRows.mp he'
    exact ⟨e', he's, hexp', hu, hname⟩
  · intro e he hexp hu hok
    exact runSweep_files_removed rmOk _ s f hf e.code e.target
      (expired_pair_mem_rows he hexp) hu hok
  · intro p hp hnone
    refine runSweep_files_keep rmOk _ s f p hp ?_
    intro r hr
    obtain ⟨e', he', rfl⟩ := List.mem_map.mp hr
    obtain ⟨he's, hexp'⟩ := mem_expiredRows.mp he'
    exact hnone e' he's hexp'

/-- Witness for C3: an expired file-backed entry's artifact `1_a.png` is gone
from the uploads folder after a sweep whose removal succeeds. -/
theorem reaper_sweep_spec_witness :
    "1_a.png" ∉ (cleanup_sweep [⟨"x", "/uploads/1_a.png", 0, 0⟩] ["1_a.png"]
      700 (fun _ => true)).2.1 := by
  have := (reaper_sweep_spec [⟨"x", "/uploads/1_a.png", 0, 0⟩] ["1_a.png"] 700
    (fun _ => true) (by decide) (by decide)).2.2.2.1
    ⟨"x", "/uploads/1_a.png", 0, 0⟩ (by decide) (by decide) (by decide)
    (by decide)
  simpa using this

/-- C4: the reaper sweep is idempotent — running a second sweep directly on
the result of a first (same clock reading, no creations in between, any
removal outcomes) changes neither the table nor the uploads folder, invokes
no `os.remove`, and raises no error (double deletion is a no-op of the model,
matching `DELETE` on an absent row and the `os.path.isfile` guard). -/
theorem reaper_sweep_idempotent (s : Store) (f : Files) (now : Int)
    (rmOk rmOk' : String → Bool) :
    cleanup_sweep (cleanup_sweep s f now rmOk).1
        (cleanup_sweep s f now rmOk).2.1 now rmOk' =
      ((cleanup_sweep s f now rmOk).1, (cleanup_sweep s f now rmOk).2.1, []) := by
  have hnone : expiredRows (cleanup_sweep s f now rmOk).1 now = [] := by
    rw [expiredRows, List.filter_eq_nil_iff]
    intro e he
    obtain ⟨hmem, hcodes⟩ := runSweep_store_mem rmOk _ s f e he
    intro hexp
    exact hcodes (e.code, e.target)
      (expired_pair_mem_rows hmem (by simpa using hexp)) rfl
  rw [cleanup_sweep, hnone]
  simp [runSweep]

/-! ### The hits counter across the whole lifecycle -/

theorem redirect_code_snd_cases (s : Store) (f : Files) (now : Int)
    (dbOk : Bool) (c : String) :
    (redirect_code s f now dbOk c).2 = s ∨
      (redirect_code s f now dbOk c).2 = increment_hits s c := by
  cases h : get_row s c with
  | none => exact Or.inl (congrArg Prod.snd (redirect_code_of_none f now dbOk h))
  | some e =>
    by_cases hexp : now - e.created_at > DELETE_AFTER_SECONDS
    · exact Or.inl (congrArg Prod.snd (redirect_code_of_expired f now dbOk h hexp))
    · cases dbOk with
      | false =>
        exact Or.inl (congrArg Prod.snd (redirect_code_of_dbfail f now h hexp))
      | true => exact Or.inr (redirect_code_live_snd f now h hexp)

/-- C8 counterexample: a live file-backed entry whose stored artifact is
missing.  The handler runs the hits UPDATE before `send_from_directory`, so
the lookup raises `hits` from 0 to 1 even though nothing is delivered (the
response is the 404 `send_from_directory` raises for the absent file). -/
theorem hits_raised_on_missing_artifact :
    redirect_code [⟨"a", "/uploads/x", 0, 0⟩] [] 1 true "a" =
      (.missingFile "x", [⟨"a", "/uploads/x", 0, 1⟩]) := by
  decide

/-- C8 amended: `hits` starts at 0 on creation and on replacement; a
non-expired lookup of an existing code raises it by exactly one — including a
file-backed lookup whose artifact is missing, since the increment precedes
artifact delivery (the `files` argument is arbitrary here); not-found and
expired lookups, and a lookup whose UPDATE fails, leave the table unchanged;
the cleanup sweep only deletes rows, never altering a surviving entry; and a
lookup of one code never touches entries of other codes. -/
theorem hits_counter_lifecycle (s : Store) (f : Files) (now : Int)
    (c : String) (dbOk : Bool) (rmOk : String → Bool) :
    (∀ t, get_row (save_mapping s c t now) c = some ⟨c, t, now, 0⟩) ∧
    (∀ e, get_row s c = some e → now - e.created_at ≤ DELETE_AFTER_SECONDS →
      get_row ((redirect_code s f now true c).2) c =
        some { e with hits := e.hits + 1 }) ∧
    (get_row s c = none → (redirect_code s f now dbOk c).2 = s) ∧
    (∀ e, get_row s c = some e → now - e.created_at > DELETE_AFTER_SECONDS →
      (redirect_code s f now dbOk c).2 = s) ∧
    (∀ e ∈ (cleanup_sweep s f now rmOk).1, e ∈ s) ∧
    (∀ e ∈ s, e.code ≠ c → e ∈ (redirect_code s f now dbOk c).2) := by
  refine ⟨fun t => get_row_save_same s c t now, ?_, ?_, ?_, ?_, ?_⟩
  · intro e h hlive
    have hlive' : ¬ now - e.created_at > DELETE_AFTER_SECONDS := by omega
    rw [redirect_code_live_snd f now h hlive', get_row_increment, h]
    simp [get_row_code h]
  · intro h
    exact congrArg Prod.snd (redirect_code_of_none f now dbOk h)
  · intro e h hexp
    exact congrArg Prod.snd (redirect_code_of_expired f now dbOk h hexp)
  · intro e he
    exact (runSweep_store_mem rmOk _ s f e he).1
  · intro e he hne
    rcases redirect_code_snd_cases s f now dbOk c with hs' | hs' <;> rw [hs']
    · exact he
    · exact mem_increment_of_ne c he hne

/-- Witness for C8's amended theorem: the lookup of the counterexample's
missing-artifact entry leaves it with `hits = 1`. -/
theorem hits_counter_lifecycle_witness :
    get_row ((redirect_code [⟨"a", "/uploads/x", 0, 0⟩] [] 1 true "a").2) "a" =
      some ⟨"a", "/uploads/x", 0, 1⟩ := by
  have := (hits_counter_lifecycle [⟨"a", "/uploads/x", 0, 0⟩] [] 1 "a" true
    (fun _ => true)).2.1 ⟨"a", "/uploads/x", 0, 0⟩ (by decide) (by decide)
  simpa using this

/-! ### Code generation and the upload key -/

theorem alphabet_getD_mem (n : Nat) :
    alphabetList.getD (n % 62) 'a' ∈ alphabetList := by
  have hlen : alphabetList.length = 62 := by decide
  have hlt : n % 62 < alphabetList.length := by
    rw [hlen]
    exact Nat.mod_lt _ (by decide)
  rw [List.getD_eq_getElem _ _ hlt]
  exact List.getElem_mem _

theorem generate_code_length (r : Nat → Nat) (length : Nat) :
    (generate_code r length).length = length := by
  simp [generate_code, String.length]

theorem generate_code_chars (r : Nat → Nat) (length : Nat) :
    ∀ ch ∈ (generate_code r length).toList, ch ∈ alphabetList := by
  intro ch hch
  simp only [generate_code, String.toList, List.mem_map] at hch
  obtain ⟨i, -, rfl⟩ := hch
  exact alphabet_getD_mem (r i)

/-- C6: `generate_code` returns a string of exactly the requested number of
characters, each drawn from the 62-symbol alphabet of upper-case letters,
lower-case letters and digits, for every randomness stream. -/
theorem generate_code_length_alphabet (r : Nat → Nat) (length : Nat) :
    (generate_code r length).length = length ∧
    (∀ ch ∈ (generate_code r length).toList, ch ∈ alphabetList) ∧
    alphabetList.length = 62 ∧ alphabetList.Nodup ∧
    (∀ ch ∈ alphabetList, ch.isUpper ∨ ch.isLower ∨ ch.isDigit) :=
  ⟨generate_code_length r length, generate_code_chars r length,
    by decide, by decide, by decide⟩

/-- Witness for C6: the first character produced by the identity stream at
the default length 6 belongs to the alphabet. -/
theorem generate_code_length_alphabet_witness : 'a' ∈ alphabetList :=
  (generate_code_length_alphabet (fun i => i) 6).2.1 'a' (by decide)

theorem mk_eq_empty_iff (l : List Char) : (String.mk l = "") ↔ l = [] := by
  constructor
  · intro h
    simpa using congrArg String.data h
  · intro h
    rw [h]

theorem stripList_eq_nil_iff (l : List Char) :
    ((l.dropWhile pySpace).reverse.dropWhile pySpace).reverse = [] ↔
      ∀ ch ∈ l, pySpace ch := by
  rw [List.reverse_eq_nil_iff, List.dropWhile_eq_nil_iff]
  constructor
  · intro h ch hch
    rw [← List.takeWhile_append_dropWhile pySpace l] at hch
    rcases List.mem_append.mp hch with hch | hch
    · exact List.mem_takeWhile_imp hch
    · exact h ch (List.mem_reverse.mpr hch)
  · intro h ch hch
    exact h ch ((List.dropWhile_sublist pySpace).subset (List.mem_reverse.mp hch))

theorem pythonStrip_eq_empty_iff (s : String) :
    pythonStrip s = "" ↔ ∀ ch ∈ s.toList, pySpace ch := by
  rw [pythonStrip, mk_eq_empty_iff]
  exact stripList_eq_nil_iff s.toList

/-- C10: the `/upload` handler keys the new entry by the stripped
caller-supplied code when anything remains of it, and otherwise — the field
empty or all whitespace — by a freshly generated 6-character code; in
particular the empty string never becomes a key, and the chosen key is the
one the saved entry is found under. -/
theorem upload_code_spec (raw : String) (r : Nat → Nat) :
    (pythonStrip raw = "" ↔ ∀ ch ∈ raw.toList, pySpace ch) ∧
    (pythonStrip raw = "" → upload_code raw r = generate_code r 6 ∧
      (upload_code raw r).length = 6) ∧
    (pythonStrip raw ≠ "" → upload_code raw r = pythonStrip raw) ∧
    upload_code raw r ≠ "" ∧
    (∀ (s : Store) (t : String) (now : Int),
      get_row (save_mapping s (upload_code raw r) t now) (upload_code raw r) =
        some ⟨upload_code raw r, t, now, 0⟩) := by
  refine ⟨pythonStrip_eq_empty_iff raw, ?_, ?_, ?_, ?_⟩
  · intro h
    rw [upload_code, if_pos h]
    exact ⟨rfl, generate_code_length r 6⟩
  · intro h
    rw [upload_code, if_neg h]
  · by_cases h : pythonStrip raw = ""
    · rw [upload_code, if_pos h]
      intro hc
      have h6 := generate_code_length r 6
      rw [hc] at h6
      simp [String.length] at h6
    · rw [upload_code, if_neg h]
      exact h
  · intro s t now
    exact get_row_save_same s (upload_code raw r) t now

/-- Witness for C10: a padded custom code is used stripped; a field holding
only a file-separator character (stripped away by `str.strip()`) is replaced
by the generated code; a code with a trailing separator is used stripped. -/
theorem upload_code_spec_witness :
    upload_code "  Ninja " (fun i => i) = pythonStrip "  Ninja " ∧
    upload_code "\x1c" (fun i => i) = generate_code (fun i => i) 6 ∧
    upload_code "a\x1c" (fun i => i) = pythonStrip "a\x1c" :=
  ⟨(upload_code_spec "  Ninja " (fun i => i)).2.2.1 (by decide),
    ((upload_code_spec "\x1c" (fun i => i)).2.1 (by decide)).1,
    (upload_code_spec "a\x1c" (fun i => i)).2.2.1 (by decide)⟩

end Shortener
